import Mathlib

/-!
Verification of the a2t (Agent-to-Tool) provider core.

This file gives a shallow embedding of the repository's core logic:
the catalog data model (`types.go`), the in-memory reference provider
(`provider.go`: `SimpleProvider.ListTools`, `SimpleProvider.ExecuteTool`,
`GroupProviderImpl.ListGroups`, `matchesQuery`), the meta-response
constructors (`meta.go`: `NewMetaToolsAdded`, `WithMeta`), and the
server usecase closures (`server.go`: `listGroupsUsecase`,
`executeToolUsecase`, `executeGroupToolUsecase`).

Modelling conventions:
- Go `int` is modelled as `Int`, with the one overflowing arithmetic
  operation the core performs — the pagination's `end := offset + limit`,
  whose operands are client-supplied — wrapped into the two's-complement
  64-bit range by `wrap64`, exactly as Go's 64-bit `int` addition wraps.
- Go `string` is modelled as Lean `String`; `strings.ToLower` is modelled
  character-wise by `Char.toLower` (the ASCII case mapping, which covers
  the alphabet used by the repository and its examples).
- Go maps iterated with `range` have unspecified iteration order; a map
  is therefore modelled as the `List` of its entries in the iteration
  order the runtime happens to pick for a given call. Two calls on the
  same (unmodified) map are modelled by two lists that are permutations
  of each other.
- A Go slice expression `s[lo:hi]` panics when its bounds are out of
  range; panicking execution is modelled as `Option.none`.
- A Go function returning `(*T, error)` is modelled as returning
  `T × Option String` (the `error` result, `none` when nil); a server
  usecase returning `error` is modelled with `Except String`.
- `interface{}` values that the core treats opaquely (tool parameters and
  executor results) are modelled by the opaque value type `GoValue`.
-/

namespace A2T

/-- Opaque model of the `interface{}` payloads (tool parameters and executor
results) that the provider core passes through without inspecting. -/
inductive GoValue where
  | null : GoValue
  | boolean : Bool → GoValue
  | num : Int → GoValue
  | str : String → GoValue
deriving DecidableEq

/-- One property of a tool's input schema, as built by `Tool.WithProperty`
in `types.go` (`{"type": propType, "description": description}`). -/
structure SchemaProperty where
  type : String
  description : String
deriving DecidableEq

/-- A tool's input schema, in the shape `NewTool`/`WithProperty` construct in
`types.go`: `{"type": "object", "properties": {...}, "required": [...]}`.
The Go field is `map[string]interface{}`; the repository only ever stores
this shape in it. -/
structure InputSchema where
  type : String
  properties : List (String × SchemaProperty)
  required : List String
deriving DecidableEq

/-- `Tool` from `types.go`: a callable unit. -/
structure Tool where
  name : String
  description : String
  inputSchema : InputSchema
  groupID : String
deriving DecidableEq

/-- `Group` from `types.go`: a catalog namespace. -/
structure Group where
  id : String
  name : String
  description : String
  parentID : String
  toolCount : Int
deriving DecidableEq

/-- `ErrorDetail` from `types.go`: structured protocol-level error data. -/
structure ErrorDetail where
  code : String
  message : String
deriving DecidableEq

/-- Payload values stored in a `MetaResponse`'s data map. In Go the data
field is `interface{}`; the two constructors in `meta.go` store a
`map[string]interface{}` holding either a `[]Tool` (under `"tools"`) or a
`[]string` (under `"group_ids"`). -/
inductive MetaDataVal where
  | toolList : List Tool → MetaDataVal
  | groupIdList : List String → MetaDataVal
deriving DecidableEq

/-- `MetaResponse` from `types.go`: `{type, data}`. The Go fields are
interface-typed; they are modelled by the shapes the repository's two
constructors actually build (a string tag and a one-key map). -/
structure MetaResponse where
  type : String
  data : List (String × MetaDataVal)
deriving DecidableEq

/-- `ExecuteResponse` from `types.go`. `result` is `nil` (here `none`)
whenever the error branch is taken. -/
structure ExecuteResponse where
  result : Option GoValue
  error : Option ErrorDetail
  meta : Option MetaResponse
deriving DecidableEq

/-- `ToolsResponse` from `types.go`: paginated envelope for tools. -/
structure ToolsResponse where
  tools : List Tool
  total : Int
  offset : Int
  limit : Int
deriving DecidableEq

/-- `GroupsResponse` from `types.go`: paginated envelope for groups. -/
structure GroupsResponse where
  groups : List Group
  total : Int
  offset : Int
  limit : Int
deriving DecidableEq

/-- Tool parameters: the `map[string]interface{}` body of an execute call. -/
abbrev Params : Type := List (String × GoValue)

/-- `ToolExecutor` from `provider.go`: a registered tool function, returning
either a value or a Go error (modelled by its message string). -/
abbrev ToolExecutor : Type := Params → Except String GoValue

/-- `SimpleProvider` from `provider.go`: the in-memory registry. The Go
fields are maps keyed by tool name; each is modelled as the list of its
entries in iteration order (see the header comment). -/
structure SimpleProvider where
  tools : List Tool
  executors : List (String × ToolExecutor)

/-- `GroupProviderImpl` from `provider.go`: `SimpleProvider` extended with a
groups registry. -/
structure GroupProviderImpl where
  toSimpleProvider : SimpleProvider
  groups : List Group

/-- Model of Go `strings.HasPrefix s pre`: `s` starts with `pre`. -/
def goStartsWith : List Char → List Char → Bool
  | _, [] => true
  | [], _ :: _ => false
  | c :: s, d :: pre => c == d && goStartsWith s pre

/-- Model of Go `strings.Contains s sub`: `sub` occurs inside `s`
(substring membership, realised as a left-to-right scan). -/
def goContains : List Char → List Char → Bool
  | [], sub => sub.isEmpty
  | c :: s, sub => goStartsWith (c :: s) sub || goContains s sub

/-- Model of Go `strings.ToLower` (character-wise ASCII case mapping). -/
def goToLower (s : String) : String :=
  ⟨s.data.map Char.toLower⟩

/-- `matchesQuery` from `provider.go` lines 214-220: case-insensitive
substring match of `query` against `name` or `description`. -/
def matchesQuery (name description query : String) : Bool :=
  goContains (goToLower name).data (goToLower query).data ||
    goContains (goToLower description).data (goToLower query).data

/-- The filter predicate inlined in `SimpleProvider.ListTools` (lines 72-86):
a tool is kept iff it passes the group filter and then the query filter. -/
def keepTool (t : Tool) (groupID query : String) : Bool :=
  (groupID == "" || t.groupID == groupID) &&
    (query == "" || matchesQuery t.name t.description query)

/-- The filter predicate inlined in `GroupProviderImpl.ListGroups`
(lines 163-177): parent filter, then query filter. -/
def keepGroup (g : Group) (parentID query : String) : Bool :=
  (parentID == "" || g.parentID == parentID) &&
    (query == "" || matchesQuery g.name g.description query)

/-- Go slice expression `xs[lo:hi]`: defined (yielding elements `lo` to
`hi - 1`) when `0 ≤ lo ≤ hi ≤ len xs`, a runtime panic (`none`) otherwise. -/
def goSlice {α : Type} (xs : List α) (lo hi : Int) : Option (List α) :=
  if 0 ≤ lo ∧ lo ≤ hi ∧ hi ≤ (xs.length : Int) then
    some ((xs.take hi.toNat).drop lo.toNat)
  else
    none

/-- Two's-complement wrap of an integer into the signed 64-bit range
`[-2^63, 2^63)`, modelling overflow of Go's `int` addition. -/
def wrap64 (n : Int) : Int :=
  (n + 2 ^ 63) % 2 ^ 64 - 2 ^ 63

/-- The pagination block shared verbatim by `SimpleProvider.ListTools`
(lines 91-99) and `GroupProviderImpl.ListGroups` (lines 182-190):
if `offset >= len` return the empty page, otherwise slice from `offset` to
`end`, where `end = offset + limit` (a Go `int` addition, which wraps)
clamped to `len`, and `limit == 0` means "to the end". -/
def applyPagination {α : Type} (xs : List α) (offset limit : Int) :
    Option (List α) :=
  if (xs.length : Int) ≤ offset then some []
  else
    goSlice xs offset
      (if limit = 0 ∨ (xs.length : Int) < wrap64 (offset + limit) then
        (xs.length : Int)
       else wrap64 (offset + limit))

/-- `SimpleProvider.ListTools` from `provider.go` lines 70-107: filter by
group and query, record the pre-slice count as `total`, paginate. The Go
method returns `(*ToolsResponse, error)` with the error always nil; the
outer `Option` is `none` exactly when the slice expression panics. -/
def SimpleProvider.ListTools (p : SimpleProvider) (groupID query : String)
    (offset limit : Int) : Option (ToolsResponse × Option String) :=
  let matched := p.tools.filter (fun t => keepTool t groupID query)
  (applyPagination matched offset limit).map (fun page =>
    ({ tools := page, total := (matched.length : Int),
       offset := offset, limit := limit }, none))

/-- `SimpleProvider.ExecuteTool` from `provider.go` lines 110-134: look up
the executor by exact name; unknown name yields a `tool_not_found` response,
an executor failure yields an `execution_error` response, success wraps the
value. The Go `error` result (second component) is nil on every path. -/
def SimpleProvider.ExecuteTool (p : SimpleProvider) (toolName : String)
    (params : Params) : ExecuteResponse × Option String :=
  match p.executors.lookup toolName with
  | none =>
      ({ result := none,
         error := some { code := "tool_not_found",
                         message := "Tool not found: " ++ toolName },
         meta := none }, none)
  | some ex =>
      match ex params with
      | .error msg =>
          ({ result := none,
             error := some { code := "execution_error", message := msg },
             meta := none }, none)
      | .ok v =>
          ({ result := some v, error := none, meta := none }, none)

/-- `GroupProviderImpl.ListGroups` from `provider.go` lines 161-198: same
shape as `ListTools`, over the groups registry with a parent filter. -/
def GroupProviderImpl.ListGroups (g : GroupProviderImpl)
    (parentID query : String) (offset limit : Int) :
    Option (GroupsResponse × Option String) :=
  let matched := g.groups.filter (fun x => keepGroup x parentID query)
  (applyPagination matched offset limit).map (fun page =>
    ({ groups := page, total := (matched.length : Int),
       offset := offset, limit := limit }, none))

/-- `GroupProviderImpl.GetGroup` from `provider.go` lines 201-210: unknown
id yields a `group_not_found` error (returned as the Go error result). -/
def GroupProviderImpl.GetGroup (g : GroupProviderImpl) (groupID : String) :
    Option Group × Option ErrorDetail :=
  match (g.groups.filter (fun x => x.id == groupID)).head? with
  | none =>
      (none, some { code := "group_not_found",
                    message := "Group not found: " ++ groupID })
  | some grp => (some grp, none)

/-- `NewMetaToolsAdded` from `meta.go` lines 166-173: a `tools_added`
meta response carrying the given tools under the `"tools"` key. -/
def NewMetaToolsAdded (tools : List Tool) : MetaResponse :=
  { type := "tools_added", data := [("tools", MetaDataVal.toolList tools)] }

/-- `NewMetaGroupRefresh` from `meta.go` lines 176-183. -/
def NewMetaGroupRefresh (groupIDs : List String) : MetaResponse :=
  { type := "group_refresh",
    data := [("group_ids", MetaDataVal.groupIdList groupIDs)] }

/-- `ExecuteResponse.WithMeta` from `meta.go` lines 186-189: attach a meta
response to an execute response. -/
def ExecuteResponse.WithMeta (r : ExecuteResponse) (meta : MetaResponse) :
    ExecuteResponse :=
  { r with meta := some meta }

/-- The server's provider field: a `ToolProvider` that may or may not also
satisfy the `GroupProvider` interface. The Go server discovers which with a
runtime type assertion; here the two cases are the two constructors. -/
inductive Provider where
  | simple : SimpleProvider → Provider
  | group : GroupProviderImpl → Provider

/-- The underlying `SimpleProvider` of either provider kind (for
`GroupProviderImpl` the embedded struct whose methods are promoted). -/
def Provider.base : Provider → SimpleProvider
  | .simple p => p
  | .group g => g.toSimpleProvider

/-- `ListGroupsInput` from `server.go`. -/
structure ListGroupsInput where
  q : String
  parentID : String
  offset : Int
  limit : Int

/-- The interactor body of `Server.listGroupsUsecase` (`server.go` lines
168-194): type-assert the provider to `GroupProvider`, returning the error
`"groups not supported"` when the assertion fails; otherwise apply the
default limit 50 and delegate to `ListGroups`. `none` models a panic in the
delegated call. -/
def Server.listGroupsUsecase (prov : Provider) (input : ListGroupsInput) :
    Option (Except String GroupsResponse) :=
  match prov with
  | .simple _ => some (Except.error "groups not supported")
  | .group g =>
      let limit := if input.limit = 0 then 50 else input.limit
      match g.ListGroups input.parentID input.q input.offset limit with
      | none => none
      | some (_, some e) => some (Except.error e)
      | some (resp, none) => some (Except.ok resp)

/-- The interactor body of `Server.executeToolUsecase` (`server.go` lines
138-165): a nil body becomes the empty parameter map, then the provider's
`ExecuteTool` is called and its response copied out (its Go error, were it
ever non-nil, would be returned as the usecase error). -/
def Server.executeToolUsecase (prov : Provider) (name : String)
    (body : Option Params) : Except String ExecuteResponse :=
  let params := body.getD []
  match prov.base.ExecuteTool name params with
  | (resp, none) => Except.ok resp
  | (_, some e) => Except.error e

/-- The interactor body of `Server.executeGroupToolUsecase` (`server.go`
lines 226-258): type-assert to `GroupProvider`, then execute exactly as the
plain tool route does — the group id from the path is not used. -/
def Server.executeGroupToolUsecase (prov : Provider) (groupID name : String)
    (body : Option Params) : Except String ExecuteResponse :=
  match prov with
  | .simple _ => Except.error "groups not supported"
  | .group _ =>
      let params := body.getD []
      match prov.base.ExecuteTool name params with
      | (resp, none) => Except.ok resp
      | (_, some e) => Except.error e

/-! ### Concrete fixtures (from the repository's examples) -/

/-- The empty input schema `NewTool` starts from. -/
def exampleSchema : InputSchema :=
  { type := "object", properties := [], required := [] }

/-- The `add` tool of the advanced example (group `math`). -/
def addTool : Tool :=
  { name := "add", description := "Add two numbers",
    inputSchema := exampleSchema, groupID := "math" }

/-- The `multiply` tool of the advanced example (group `math`). -/
def multiplyTool : Tool :=
  { name := "multiply", description := "Multiply two numbers",
    inputSchema := exampleSchema, groupID := "math" }

/-- The `uppercase` tool of the advanced example (group `string`). -/
def uppercaseTool : Tool :=
  { name := "uppercase", description := "Convert text to uppercase",
    inputSchema := exampleSchema, groupID := "string" }

/-- An executor that always fails with message `"boom"`. -/
def failingExecutor : ToolExecutor := fun _ => Except.error "boom"

/-- The mathematical substring relation: `sub` occurs contiguously in `s`. -/
def IsSubstring (sub s : List Char) : Prop :=
  ∃ pre post : List Char, s = pre ++ sub ++ post

/-! ### Helper lemmas -/

theorem goStartsWith_iff (s pre : List Char) :
    goStartsWith s pre = true ↔ ∃ rest, s = pre ++ rest := by
  induction pre generalizing s with
  | nil => simp [goStartsWith]
  | cons d pre ih =>
    cases s with
    | nil => simp [goStartsWith]
    | cons c s =>
      simp only [goStartsWith, Bool.and_eq_true, beq_iff_eq, ih,
        List.cons_append, List.cons.injEq]
      constructor
      · rintro ⟨rfl, rest, rfl⟩
        exact ⟨rest, rfl, rfl⟩
      · rintro ⟨rest, rfl, rfl⟩
        exact ⟨rfl, rest, rfl⟩

theorem goContains_iff (s sub : List Char) :
    goContains s sub = true ↔ IsSubstring sub s := by
  induction s with
  | nil =>
    simp only [goContains, List.isEmpty_iff, IsSubstring]
    constructor
    · rintro rfl
      exact ⟨[], [], rfl⟩
    · rintro ⟨pre, post, h⟩
      rcases List.append_eq_nil.mp h.symm with ⟨h1, h2⟩
      exact (List.append_eq_nil.mp h1).2
  | cons c s ih =>
    simp only [goContains, Bool.or_eq_true, goStartsWith_iff, ih, IsSubstring]
    constructor
    · rintro (⟨rest, hrest⟩ | ⟨pre, post, rfl⟩)
      · exact ⟨[], rest, by simp [hrest]⟩
      · exact ⟨c :: pre, post, rfl⟩
    · rintro ⟨pre, post, hsplit⟩
      cases pre with
      | nil =>
        exact Or.inl ⟨post, by simpa using hsplit⟩
      | cons e pre =>
        rw [List.cons_append, List.cons_append, List.cons.injEq] at hsplit
        exact Or.inr ⟨pre, post, hsplit.2⟩

theorem goContains_empty (s : List Char) : goContains s [] = true := by
  cases s with
  | nil => rfl
  | cons c s => rfl

/-- A Go slice with bounds in range evaluates (no panic) and has length
`hi - lo`. -/
theorem goSlice_of_bounds {α : Type} (xs : List α) (lo hi : Int)
    (h0 : 0 ≤ lo) (h1 : lo ≤ hi) (h2 : hi ≤ (xs.length : Int)) :
    ∃ page : List α, goSlice xs lo hi = some page ∧
      (page.length : Int) = hi - lo := by
  refine ⟨(xs.take hi.toNat).drop lo.toNat, ?_, ?_⟩
  · simp only [goSlice, if_pos (And.intro h0 (And.intro h1 h2))]
  · simp only [List.length_drop, List.length_take]
    omega

/-- A non-negative integer below `2^63` is its own 64-bit wrap. -/
theorem wrap64_eq_self {n : Int} (h1 : -(2 ^ 63) ≤ n) (h2 : n < 2 ^ 63) :
    wrap64 n = n := by
  unfold wrap64
  omega

/-- The pagination block never panics for non-negative offset and limit
whose sum does not overflow, and the page it returns has length
`min (max (len - offset) 0) (if limit = 0 then max (len - offset) 0 else limit)`. -/
theorem applyPagination_spec {α : Type} (xs : List α) (off lim : Int)
    (hoff : 0 ≤ off) (hlim : 0 ≤ lim) (hsum : off + lim < 2 ^ 63) :
    ∃ page : List α, applyPagination xs off lim = some page ∧
      (page.length : Int) =
        min (max ((xs.length : Int) - off) 0)
          (if lim = 0 then max ((xs.length : Int) - off) 0 else lim) := by
  have hw : wrap64 (off + lim) = off + lim := wrap64_eq_self (by omega) hsum
  by_cases hbig : (xs.length : Int) ≤ off
  · refine ⟨[], ?_, ?_⟩
    · simp [applyPagination, hbig]
    · simp only [List.length_nil, Nat.cast_zero]
      split <;> omega
  · push_neg at hbig
    have h1 : off ≤ (if lim = 0 ∨ (xs.length : Int) < wrap64 (off + lim)
        then (xs.length : Int) else wrap64 (off + lim)) := by
      rw [hw]
      split <;> omega
    have h2 : (if lim = 0 ∨ (xs.length : Int) < wrap64 (off + lim)
        then (xs.length : Int) else wrap64 (off + lim)) ≤
          (xs.length : Int) := by
      rw [hw]
      split <;> omega
    obtain ⟨page, hpage, hlen⟩ := goSlice_of_bounds xs off _ hoff h1 h2
    refine ⟨page, ?_, ?_⟩
    · rw [applyPagination, if_neg (by omega)]
      exact hpage
    · rw [hlen, hw]
      clear h1 h2 hpage
      split_ifs <;> omega

/-- Every element of an evaluated Go slice comes from the sliced list. -/
theorem goSlice_subset {α : Type} {xs page : List α} {lo hi : Int}
    (h : goSlice xs lo hi = some page) :
    ∀ a ∈ page, a ∈ xs := by
  intro a ha
  rw [goSlice] at h
  split at h
  · cases h
    exact List.take_subset _ _ (List.drop_subset _ _ ha)
  · cases h

/-- Every element of a returned page comes from the paginated list. -/
theorem applyPagination_subset {α : Type} {xs page : List α} {off lim : Int}
    (h : applyPagination xs off lim = some page) :
    ∀ a ∈ page, a ∈ xs := by
  intro a ha
  rw [applyPagination] at h
  split at h
  · cases h
    simp at ha
  · exact goSlice_subset h a ha

/-! ### Claim theorems -/

/-- Claim C2: calling the group-tier operation `list_groups` against a
provider that only satisfies the base `ToolProvider` tier yields the
well-defined "groups not supported" error (a returned error value, not a
crash), for every input. -/
theorem listGroups_capability_not_supported (p : SimpleProvider)
    (input : ListGroupsInput) :
    Server.listGroupsUsecase (Provider.simple p) input =
      some (Except.error "groups not supported") := rfl

/-- Claim C3: when the registered executor of a tool fails, `ExecuteTool`
returns an `ExecuteResponse` whose error code is `"execution_error"` and
whose message equals the failure's description, with no result and no meta;
its own Go error result is nil, so the failure never escapes the provider
boundary as a fault. -/
theorem executeTool_executor_failure (p : SimpleProvider) (toolName : String)
    (params : Params) (ex : ToolExecutor) (msg : String)
    (hfound : p.executors.lookup toolName = some ex)
    (hfail : ex params = Except.error msg) :
    p.ExecuteTool toolName params =
      ({ result := none,
         error := some { code := "execution_error", message := msg },
         meta := none }, none) := by
  simp [SimpleProvider.ExecuteTool, hfound, hfail]

/-- Witness for C3 at a concrete provider whose single executor fails with
message `"boom"`. -/
theorem executeTool_executor_failure_witness :
    (([("boom_tool", failingExecutor)] :
        List (String × ToolExecutor)).lookup "boom_tool" =
      some failingExecutor) ∧
    failingExecutor [] = Except.error "boom" ∧
    SimpleProvider.ExecuteTool ⟨[], [("boom_tool", failingExecutor)]⟩
        "boom_tool" [] =
      ({ result := none,
         error := some { code := "execution_error", message := "boom" },
         meta := none }, none) :=
  ⟨rfl, rfl,
    executeTool_executor_failure ⟨[], [("boom_tool", failingExecutor)]⟩
      "boom_tool" [] failingExecutor "boom" rfl rfl⟩

/-- Claim C4: for a tool name with no registered executor, `ExecuteTool`
returns (does not raise) an `ExecuteResponse` with error code
`"tool_not_found"` and the result unset, for any parameter map. -/
theorem executeTool_unknown_name (p : SimpleProvider) (toolName : String)
    (params : Params)
    (h : p.executors.lookup toolName = none) :
    p.ExecuteTool toolName params =
      ({ result := none,
         error := some { code := "tool_not_found",
                         message := "Tool not found: " ++ toolName },
         meta := none }, none) := by
  simp [SimpleProvider.ExecuteTool, h]

/-- Witness for C4: executing `"nonexistent"` against an empty registry. -/
theorem executeTool_unknown_name_witness :
    (([] : List (String × ToolExecutor)).lookup "nonexistent" = none) ∧
    SimpleProvider.ExecuteTool ⟨[], []⟩ "nonexistent" [] =
      ({ result := none,
         error := some { code := "tool_not_found",
                         message := "Tool not found: " ++ "nonexistent" },
         meta := none }, none) :=
  ⟨rfl, executeTool_unknown_name ⟨[], []⟩ "nonexistent" [] rfl⟩

/-- Claim C8: a `tools_added` meta payload built by `NewMetaToolsAdded` and
attached with `WithMeta` round-trips: the meta type is `"tools_added"`, the
tools appear verbatim under the `"tools"` key of the meta data, and the
response's result and error are untouched. -/
theorem metaToolsAdded_roundtrip (tools : List Tool) (r : ExecuteResponse) :
    (r.WithMeta (NewMetaToolsAdded tools)).meta =
      some { type := "tools_added",
             data := [("tools", MetaDataVal.toolList tools)] } ∧
    (r.WithMeta (NewMetaToolsAdded tools)).meta.map MetaResponse.type =
      some "tools_added" ∧
    (r.WithMeta (NewMetaToolsAdded tools)).meta.bind
        (fun m => m.data.lookup "tools") =
      some (MetaDataVal.toolList tools) ∧
    (r.WithMeta (NewMetaToolsAdded tools)).result = r.result ∧
    (r.WithMeta (NewMetaToolsAdded tools)).error = r.error :=
  ⟨rfl, rfl, rfl, rfl, rfl⟩

/-- Claim C9: on a provider satisfying `GroupProvider`, the group-scoped
execution route behaves exactly like the plain tool route for every group
id, tool name and body: the group id from the path is never consulted and
no membership check is made. -/
theorem executeGroupTool_eq_executeTool (g : GroupProviderImpl)
    (groupID name : String) (body : Option Params) :
    Server.executeGroupToolUsecase (Provider.group g) groupID name body =
      Server.executeToolUsecase (Provider.group g) name body := rfl

/-- Claim C5: an item matches a query iff the lower-cased query occurs as a
substring of the lower-cased name or of the lower-cased description; the
empty query matches everything; and the query `"ADD"` matches an item named
`"add two numbers"`. -/
theorem matchesQuery_spec (name description query : String) :
    (matchesQuery name description query = true ↔
      (IsSubstring (goToLower query).data (goToLower name).data ∨
       IsSubstring (goToLower query).data (goToLower description).data)) ∧
    matchesQuery name description "" = true ∧
    matchesQuery "add two numbers" "" "ADD" = true := by
  refine ⟨?_, ?_, by decide⟩
  · simp [matchesQuery, goContains_iff]
  · have h : (goToLower "").data = [] := rfl
    simp [matchesQuery, h, goContains_empty]

/-- Claim C6: with a non-empty group id, every tool on the returned page
belongs to that group; a group id owning no tools never produces an error
but yields the empty page with total 0; with tools `add` (group `math`) and
`uppercase` (group `string`), listing group `math` returns only `add`. -/
theorem listTools_group_filter :
    (∀ (p : SimpleProvider) (gid q : String) (off lim : Int)
        (r : ToolsResponse × Option String),
        gid ≠ "" → p.ListTools gid q off lim = some r →
        ∀ t ∈ r.1.tools, t.groupID = gid) ∧
    (∀ (p : SimpleProvider) (gid q : String) (off lim : Int),
        gid ≠ "" → (∀ t ∈ p.tools, t.groupID ≠ gid) →
        0 ≤ off → 0 ≤ lim →
        p.ListTools gid q off lim =
          some ({ tools := [], total := 0, offset := off, limit := lim },
            none)) ∧
    SimpleProvider.ListTools ⟨[addTool, uppercaseTool], []⟩ "math" "" 0 0 =
      some ({ tools := [addTool], total := 1, offset := 0, limit := 0 },
        none) := by
  refine ⟨?_, ?_, by decide⟩
  · intro p gid q off lim r hgid hsome t ht
    simp only [SimpleProvider.ListTools] at hsome
    rcases hmap : applyPagination
        (p.tools.filter fun x => keepTool x gid q) off lim with _ | page
    · rw [hmap] at hsome
      cases hsome
    · rw [hmap] at hsome
      simp only [Option.map_some'] at hsome
      cases hsome
      have ht' : t ∈ page := ht
      have hmem := applyPagination_subset hmap t ht'
      have hk := (List.mem_filter.mp hmem).2
      simp only [keepTool, Bool.and_eq_true, Bool.or_eq_true,
        beq_iff_eq] at hk
      rcases hk.1 with h | h
      · exact absurd h hgid
      · exact h
  · intro p gid q off lim hgid hno hoff hlim
    have hmatched : p.tools.filter (fun t => keepTool t gid q) = [] := by
      rw [List.filter_eq_nil_iff]
      intro t ht
      have h1 : (gid == "") = false := beq_eq_false_iff_ne.mpr hgid
      have h2 : (t.groupID == gid) = false := beq_eq_false_iff_ne.mpr (hno t ht)
      simp [keepTool, h1, h2]
    simp [SimpleProvider.ListTools, hmatched, applyPagination, hoff]

/-- Witness for C6: listing group `math` on a registry holding only the
`uppercase` tool (group `string`) yields the empty page and total 0 with no
error. -/
theorem listTools_group_filter_witness :
    ("math" : String) ≠ "" ∧
    SimpleProvider.ListTools ⟨[uppercaseTool], []⟩ "math" "" 0 0 =
      some ({ tools := [], total := 0, offset := 0, limit := 0 }, none) :=
  ⟨by decide,
    listTools_group_filter.2.1 ⟨[uppercaseTool], []⟩ "math" "" 0 0
      (by decide) (by decide) (by decide) (by decide)⟩

/-- Claim C1 fails as stated: on an empty registry with `offset = 1` and
`limit = 0`, `ListTools` returns the empty page (as the code's
`offset >= len` guard dictates), while the claim's formula
`min(max(total-offset,0), limit==0 ? total-offset : limit)` evaluates to
`-1`, not `0`, because its second operand is not clamped at zero. -/
theorem claim1_counterexample :
    SimpleProvider.ListTools ⟨[], []⟩ "" "" 1 0 =
      some ({ tools := [], total := 0, offset := 1, limit := 0 }, none) ∧
    ¬ ((0 : Int) =
        min (max ((0 : Int) - 1) 0)
          (if (0 : Int) = 0 then (0 : Int) - 1 else (0 : Int))) := by
  exact ⟨by decide, by decide⟩

/-- Claim C1 (amended): for non-negative offset and limit whose sum does
not overflow Go's 64-bit `int` (`offset + limit < 2^63`), `ListTools` and
`ListGroups` return (with a nil Go error) a page whose length is
`min(max(total-offset,0), limit==0 ? max(total-offset,0) : limit)` — the
claim's formula with the `limit == 0` branch also clamped at zero — where
`total` is the count of items matching the group and query filters before
slicing; in particular `offset >= total` yields the empty page with `total`
still the pre-slice match count, and `limit == 0` means "all remaining
items from offset". (Without the no-overflow bound the code's
`end := offset + limit` wraps negative and the slice panics.) -/
theorem listTools_listGroups_page_length (p : SimpleProvider)
    (g : GroupProviderImpl) (gid q pid q' : String) (off lim : Int)
    (hoff : 0 ≤ off) (hlim : 0 ≤ lim) (hsum : off + lim < 2 ^ 63) :
    (p.ListTools gid q off lim).map
        (fun r => ((r.1.tools.length : Int), r.1.total, r.2)) =
      some
        (min (max (((p.tools.filter fun t => keepTool t gid q).length : Int)
              - off) 0)
           (if lim = 0
            then max (((p.tools.filter fun t =>
                keepTool t gid q).length : Int) - off) 0
            else lim),
         ((p.tools.filter fun t => keepTool t gid q).length : Int), none) ∧
    (g.ListGroups pid q' off lim).map
        (fun r => ((r.1.groups.length : Int), r.1.total, r.2)) =
      some
        (min (max (((g.groups.filter fun x => keepGroup x pid q').length :
              Int) - off) 0)
           (if lim = 0
            then max (((g.groups.filter fun x =>
                keepGroup x pid q').length : Int) - off) 0
            else lim),
         ((g.groups.filter fun x => keepGroup x pid q').length : Int),
         none) := by
  constructor
  · obtain ⟨pt, hpt, hlt⟩ :=
      applyPagination_spec (p.tools.filter fun t => keepTool t gid q)
        off lim hoff hlim hsum
    simp [SimpleProvider.ListTools, hpt, hlt]
  · obtain ⟨pg, hpg, hlg⟩ :=
      applyPagination_spec (g.groups.filter fun x => keepGroup x pid q')
        off lim hoff hlim hsum
    simp [GroupProviderImpl.ListGroups, hpg, hlg]

/-- Witness for the amended C1, on a two-tool registry with `offset = 1`,
`limit = 2` (page length `min(max(2-1,0),2) = 1`). -/
theorem listTools_listGroups_page_length_witness :
    (0 : Int) ≤ 1 ∧ (0 : Int) ≤ 2 ∧ (1 : Int) + 2 < 2 ^ 63 ∧
    ((SimpleProvider.ListTools ⟨[addTool, uppercaseTool], []⟩ "" "" 1 2).map
        (fun r => ((r.1.tools.length : Int), r.1.total, r.2)) =
      some (1, 2, none)) := by
  refine ⟨by decide, by decide, by decide, ?_⟩
  have h := (listTools_listGroups_page_length ⟨[addTool, uppercaseTool], []⟩
    ⟨⟨[], []⟩, []⟩ "" "" "" "" 1 2 (by decide) (by decide) (by decide)).1
  exact h.trans (by decide)

/-- Claim C7 fails as stated: Go map iteration order is unspecified, so two
calls with identical arguments against the same unmodified registry (here:
the same two-tool map presented in its two possible iteration orders) can
return different pages once pagination slices the match list. -/
theorem claim7_counterexample :
    (([addTool, multiplyTool] : List Tool).Perm [multiplyTool, addTool]) ∧
    addTool.name ≠ multiplyTool.name ∧
    SimpleProvider.ListTools ⟨[addTool, multiplyTool], []⟩ "" "" 0 1 ≠
      SimpleProvider.ListTools ⟨[multiplyTool, addTool], []⟩ "" "" 0 1 := by
  refine ⟨by decide, by decide, by decide⟩

/-- Claim C7 (amended): two `ListTools` calls with identical, non-negative,
non-overflowing arguments (`offset + limit < 2^63`) against an unmodified
registry return the same `total` (the totals of both calls equal the match
count, however the runtime orders the registry map); the page itself is
only guaranteed to coincide when the map iteration order of the two calls
happens to agree. -/
theorem listTools_total_deterministic (p p' : SimpleProvider)
    (gid q : String) (off lim : Int)
    (hperm : p.tools.Perm p'.tools) (hoff : 0 ≤ off) (hlim : 0 ≤ lim)
    (hsum : off + lim < 2 ^ 63) :
    (p.ListTools gid q off lim).map (fun r => r.1.total) =
      some ((p.tools.filter fun t => keepTool t gid q).length : Int) ∧
    (p'.ListTools gid q off lim).map (fun r => r.1.total) =
      some ((p.tools.filter fun t => keepTool t gid q).length : Int) := by
  have hlen : (p'.tools.filter fun t => keepTool t gid q).length =
      (p.tools.filter fun t => keepTool t gid q).length :=
    ((hperm.filter fun t => keepTool t gid q).length_eq).symm
  constructor
  · obtain ⟨pt, hpt, -⟩ :=
      applyPagination_spec (p.tools.filter fun t => keepTool t gid q)
        off lim hoff hlim hsum
    simp [SimpleProvider.ListTools, hpt]
  · obtain ⟨pt, hpt, -⟩ :=
      applyPagination_spec (p'.tools.filter fun t => keepTool t gid q)
        off lim hoff hlim hsum
    simp [SimpleProvider.ListTools, hpt, hlen]

/-- Witness for the amended C7: the two iteration orders of the
counterexample registry both report total 2. -/
theorem listTools_total_deterministic_witness :
    (0 : Int) ≤ 0 ∧ (0 : Int) ≤ 1 ∧ (0 : Int) + 1 < 2 ^ 63 ∧
    (SimpleProvider.ListTools ⟨[addTool, multiplyTool], []⟩ "" "" 0 1).map
        (fun r => r.1.total) = some 2 ∧
    (SimpleProvider.ListTools ⟨[multiplyTool, addTool], []⟩ "" "" 0 1).map
        (fun r => r.1.total) = some 2 := by
  refine ⟨by decide, by decide, by decide, ?_, ?_⟩
  · have h := (listTools_total_deterministic
      ⟨[addTool, multiplyTool], []⟩ ⟨[multiplyTool, addTool], []⟩ "" "" 0 1
      (by decide) (by decide) (by decide) (by decide)).1
    exact h.trans (by decide)
  · have h := (listTools_total_deterministic
      ⟨[addTool, multiplyTool], []⟩ ⟨[multiplyTool, addTool], []⟩ "" "" 0 1
      (by decide) (by decide) (by decide) (by decide)).2
    exact h.trans (by decide)

/-- Claim C10 fails as stated: non-negativity of offset and limit alone
does not make the slice safe. At `offset = 1`, `limit = 2^63 - 1` — both
non-negative Go ints — on a registry with two matching tools, the code's
`end := offset + limit` wraps to `-2^63`; the clamp `end > len` is then
false, and `tools[1:-2^63]` panics. -/
theorem claim10_counterexample :
    (0 : Int) ≤ 1 ∧ (0 : Int) ≤ 2 ^ 63 - 1 ∧
    SimpleProvider.ListTools ⟨[addTool, multiplyTool], []⟩ "" ""
      1 (2 ^ 63 - 1) = none := by
  refine ⟨by decide, by decide, by decide⟩

/-- Claim C10 (amended): under the preconditions `0 ≤ offset`, `0 ≤ limit`
and `offset + limit < 2^63` (the addition `end := offset + limit` does not
overflow), the pagination slice of `ListTools` and `ListGroups` always has
in-bounds indices, so the panic branch is unreachable; the code contains no
rejection of negative values — a negative offset reaches the slice
expression and panics — so these hypotheses are what make the slicing
safe. -/
theorem pagination_slice_safe (p : SimpleProvider) (g : GroupProviderImpl)
    (gid q pid q' : String) (off lim : Int)
    (hoff : 0 ≤ off) (hlim : 0 ≤ lim) (hsum : off + lim < 2 ^ 63) :
    (p.ListTools gid q off lim).isSome ∧
    (g.ListGroups pid q' off lim).isSome ∧
    ∀ t : Tool, SimpleProvider.ListTools ⟨[t], []⟩ "" "" (-1) 1 = none := by
  refine ⟨?_, ?_, ?_⟩
  · obtain ⟨pt, hpt, -⟩ :=
      applyPagination_spec (p.tools.filter fun t => keepTool t gid q)
        off lim hoff hlim hsum
    simp [SimpleProvider.ListTools, hpt]
  · obtain ⟨pg, hpg, -⟩ :=
      applyPagination_spec (g.groups.filter fun x => keepGroup x pid q')
        off lim hoff hlim hsum
    simp [GroupProviderImpl.ListGroups, hpg]
  · intro t
    simp [SimpleProvider.ListTools, applyPagination, goSlice, keepTool]

/-- Witness for the amended C10 at offset 0, limit 0 on concrete
registries. -/
theorem pagination_slice_safe_witness :
    (0 : Int) ≤ 0 ∧ (0 : Int) + 0 < 2 ^ 63 ∧
    (SimpleProvider.ListTools ⟨[addTool], []⟩ "" "" 0 0).isSome = true :=
  ⟨by decide, by decide,
    (pagination_slice_safe ⟨[addTool], []⟩ ⟨⟨[], []⟩, []⟩ "" "" "" "" 0 0
      (by decide) (by decide) (by decide)).1⟩

end A2T
